import Mathlib

/-!
Verification of the neuroevolution core of rust-ai-wars.

The network wrapper `VaiNet` (src/src/vain.rs) and the three ECS systems of
src/src/cell/vai_cell.rs (`spawn_vai_cells`, `update_vai_cells_system`,
`vai_cell_replication_system`) are embedded as pure Lean functions.
Floating-point values are modelled as rationals; the f64 -> f32 -> f64
conversions at the `predict` boundary are modelled as the identity.
Randomness is modelled by explicit draw streams: a unit draw `u` in `[0,1)`
turns `rng.gen_range(lo..hi)` into `lo + (hi - lo) * u`.

The external `vai` crate (the type `VAI<I,O,HIDDEN,0>` with `new`,
`create_variant`, `process_slice_transparent`) ships no source in this
repository, so it is modelled from the spec where marked below.
-/

/-- Dot product of two rational vectors (zip-multiply-sum). -/
def dotProd (xs ys : List ℚ) : ℚ := (List.zipWith (fun a b => a * b) xs ys).sum

/-- One layer transition: each row of the weight matrix produces one output entry. -/
def applyLayer (mat : List (List ℚ)) (v : List ℚ) : List ℚ :=
  mat.map (fun row => dotProd row v)

/-- Modelled from the spec: the external `vai` crate's network type
`VAI<I,O,HIDDEN,0>` — "parameters are a set of weight matrices/bias vectors,
one per layer transition, shaped by three compile-time-fixed sizes".
The size parameters are phantom, mirroring the const generics; the shape
discipline the crate enforces statically is the predicate `VAI.wf` below. -/
structure VAI (I O HIDDEN : Nat) where
  mats : List (List (List ℚ))
deriving DecidableEq

/-- Shape well-formedness: at least one layer transition, and the last
weight matrix has exactly `O` rows, so the final activation has width `O`. -/
def VAI.wf {I O HIDDEN : Nat} (v : VAI I O HIDDEN) : Prop :=
  v.mats ≠ [] ∧ (v.mats.getLastD []).length = O

/-- An all-zero `rows × cols` weight matrix. -/
def zeroMat (rows cols : Nat) : List (List ℚ) :=
  List.replicate rows (List.replicate cols 0)

/-- Modelled from the spec: `VAI::new()` allocates the fixed-shape parameter
set (`L` hidden layer transitions — "a configurable number of hidden
layers"), all weights zero before the initial randomization. -/
def VAI.new (I O HIDDEN L : Nat) : VAI I O HIDDEN :=
  ⟨if L = 0 then [zeroMat O I]
   else zeroMat HIDDEN I :: (List.replicate (L - 1) (zeroMat HIDDEN HIDDEN) ++ [zeroMat O HIDDEN])⟩

/-- Modelled from the spec: `VAI::create_variant(strength)` returns a copy of
the network in which every weight is perturbed by independent noise scaled by
`strength` ("perturbs every weight/bias by independent noise scaled by
strength").  It is value-returning, exactly as its use in `VaiNet::new`
(`VAI::new().create_variant(5.)`) requires; the receiver is unchanged.
`noise layer row col` is the independent noise draw for one weight. -/
def VAI.create_variant {I O HIDDEN : Nat} (v : VAI I O HIDDEN) (strength : ℚ)
    (noise : Nat → Nat → Nat → ℚ) : VAI I O HIDDEN :=
  ⟨v.mats.mapIdx fun i mat =>
    mat.mapIdx fun j row =>
      row.mapIdx fun k w => w + strength * noise i j k⟩

/-- Forward propagation collecting the activation of every layer, in order. -/
def processLayers : List (List (List ℚ)) → List ℚ → List (List ℚ)
  | [], _ => []
  | m :: rest, v =>
    let y := applyLayer m v
    y :: processLayers rest y

/-- Modelled from the spec: `VAI::process_slice_transparent` "propagates it
through every layer, and returns the activation of every layer (not just the
final output) as an ordered sequence of per-layer output vectors". -/
def VAI.process_slice_transparent {I O HIDDEN : Nat} (v : VAI I O HIDDEN)
    (input : List ℚ) : List (List ℚ) :=
  processLayers v.mats input

/-- `VaiNet<I,O,HIDDEN>` from src/src/vain.rs: a newtype over `VAI<I,O,HIDDEN,0>`. -/
structure VaiNet (I O HIDDEN : Nat) where
  layers : VAI I O HIDDEN
deriving DecidableEq

/-- `VaiNet::new` from src/src/vain.rs:
`Self { layers: VAI::<I, O, HIDDEN, 0>::new().create_variant(5.) }` —
fresh zero network randomized with the large spread constant `5.0`. -/
def VaiNet.new (I O HIDDEN L : Nat) (noise : Nat → Nat → Nat → ℚ) : VaiNet I O HIDDEN :=
  ⟨(VAI.new I O HIDDEN L).create_variant 5 noise⟩

/-- `#[derive(Clone)]` on `VaiNet`: a deep copy of the parameter set. -/
def VaiNet.clone {I O HIDDEN : Nat} (n : VaiNet I O HIDDEN) : VaiNet I O HIDDEN :=
  ⟨⟨n.layers.mats⟩⟩

/-- `VaiNet::predict` from src/src/vain.rs: converts the f64 input to f32
(identity here), pushes the constant `1.0`, runs
`process_slice_transparent`, and converts each layer back to f64 (identity). -/
def VaiNet.predict {I O HIDDEN : Nat} (n : VaiNet I O HIDDEN) (inputs : List ℚ) :
    List (List ℚ) :=
  n.layers.process_slice_transparent (inputs ++ [1])

/-- `VaiNet::mutate` from src/src/vain.rs.  The source body is the single
statement `self.layers.create_variant(1.0);` — the freshly created variant is
never assigned back to `self.layers`, so the statement's value is dropped and
the network is returned unchanged.  The embedding keeps the discarded
computation visible. -/
def VaiNet.mutate {I O HIDDEN : Nat} (n : VaiNet I O HIDDEN)
    (noise : Nat → Nat → Nat → ℚ) : VaiNet I O HIDDEN :=
  let _discarded := n.layers.create_variant 1 noise
  n

/-- A call `n.predict(x)` through a shared (`&self`) reference: the pair of
the returned activations and the network as observable after the call.
`&self` forbids mutation, so the second component is `n` itself. -/
def VaiNet.predictCall {I O HIDDEN : Nat} (n : VaiNet I O HIDDEN) (x : List ℚ) :
    List (List ℚ) × VaiNet I O HIDDEN :=
  (n.predict x, n)

/-- `rng.gen_range(lo..hi)` driven by a unit draw `u ∈ [0,1)`:
the sampled value is `lo + (hi - lo) * u`. -/
def genRange (lo hi u : ℚ) : ℚ := lo + (hi - lo) * u

/-- One agent ("cell") as assembled by `VaiCellBundle::new` in
src/src/cell/vai_cell.rs.  Physics- and rendering-only fields (sprite,
collider, damping, collision groups) are outside the modelled core; the
tracker timestamps (`LastUpdated`, `LastBulletFired`) are modelled as
rational clock readings, the rolling `FitnessScores` as the list of recorded
scalars (spec: "ordered sequence of recorded scalar fitness values,
append-only"). -/
structure Agent (I O HIDDEN : Nat) where
  id : Nat
  pos : ℚ × ℚ
  rot : ℚ
  force : ℚ × ℚ
  torque : ℚ
  birthPlace : ℚ × ℚ
  phase : ℚ
  lastUpdated : ℚ
  lastBulletFired : ℚ
  numCellsSpawned : Nat
  fitnessScores : List ℚ
  brain : VaiNet I O HIDDEN
deriving DecidableEq

/-- `VaiCellBundle::new(x, y, cell_id, net, ..)` from src/src/cell/vai_cell.rs:
rotation is `rng.gen_range(0.0..6.0)`, the evaluation phase offset
(`PeriodicUpdateInterval`) is `rng.gen_range(0.0..=1.0)`, forces start at
zero, no offspring yet, empty fitness history, default (zero) timestamps. -/
def VaiCellBundle.new (I O HIDDEN : Nat) (x y : ℚ) (cellId : Nat)
    (net : VaiNet I O HIDDEN) (urot uphase : ℚ) : Agent I O HIDDEN :=
  { id := cellId
    pos := (x, y)
    rot := genRange 0 6 urot
    force := (0, 0)
    torque := 0
    birthPlace := (x, y)
    phase := genRange 0 1 uphase
    lastUpdated := 0
    lastBulletFired := 0
    numCellsSpawned := 0
    fitnessScores := []
    brain := net }

/-- The state the three systems touch: the `CellId` resource (a monotone id
counter) and the population of VAI cells (the entities matched by the
systems' queries: `With<Cell>, With<VaiBrain>, Without<UserControlledCell>`). -/
structure SimState (I O HIDDEN : Nat) where
  cellId : Nat
  cells : List (Agent I O HIDDEN)
deriving DecidableEq

/-- The unit random draws one bootstrap spawn consumes, plus the noise stream
feeding the fresh network's initialization. -/
structure SpawnDraws where
  ux : ℚ
  uy : ℚ
  urot : ℚ
  uphase : ℚ
  initNoise : Nat → Nat → Nat → ℚ

/-- All unit draws of a `SpawnDraws` lie in `[0,1)`, the contract of
`rand`'s uniform sampling that drives `gen_range`. -/
def SpawnDraws.unitRange (d : SpawnDraws) : Prop :=
  0 ≤ d.ux ∧ d.ux < 1 ∧ 0 ≤ d.uy ∧ d.uy < 1 ∧
  0 ≤ d.urot ∧ d.urot < 1 ∧ 0 ≤ d.uphase ∧ d.uphase < 1

/-- `NUM_VAI_CELLS` from src/src/cell/vai_cell.rs — the population cap the
spec calls `MAX_POPULATION`. -/
def NUM_VAI_CELLS : Nat := 1000

/-- `spawn_vai_cells` from src/src/cell/vai_cell.rs (the bootstrap check).
If the query finds any cell (`num_cells > 0`) it returns at once; otherwise it
spawns `cap` cells (`cap` is `NUM_VAI_CELLS` in the source; it is threaded as
a parameter, as §9 of the spec prescribes for configuration constants), each
at `x = gen_range(-(W/2)..W/2)`, `y = gen_range(-(H/2)..H/2)`, with the
incremented `cell_id` and a freshly constructed `VaiNet::new()`. -/
def spawn_vai_cells (I O HIDDEN L cap : Nat) (Wq Hq : ℚ)
    (draws : Nat → SpawnDraws) (s : SimState I O HIDDEN) : SimState I O HIDDEN :=
  if 0 < s.cells.length then s
  else
    { cellId := s.cellId + cap
      cells := s.cells ++ (List.range cap).map fun i =>
        VaiCellBundle.new I O HIDDEN
          (genRange (-(Wq / 2)) (Wq / 2) (draws i).ux)
          (genRange (-(Hq / 2)) (Hq / 2) (draws i).uy)
          (s.cellId + i + 1)
          (VaiNet.new I O HIDDEN L (draws i).initNoise)
          (draws i).urot (draws i).uphase }

/-- The random draws one iteration of the replication loop may consume:
the reproduction test draw (`gen_range(0.0..1.0)`), the child position and
bundle draws, and the noise stream handed to the child's `mutate`. -/
structure ReproDraws where
  utest : ℚ
  ux : ℚ
  uy : ℚ
  urot : ℚ
  uphase : ℚ
  noise : Nat → Nat → Nat → ℚ

/-- Intermediate state of the loop of `vai_cell_replication_system`:
the `CellId` counter, the running `num_cells` count, the already-visited
parents (written back in place by the query), and the children handed to
`commands.spawn` (inserted only after the pass, so never iterated). -/
structure RepState (I O HIDDEN : Nat) where
  cellId : Nat
  numCells : Nat
  done : List (Agent I O HIDDEN)
  spawned : List (Agent I O HIDDEN)
deriving DecidableEq

/-- One iteration of the loop of `vai_cell_replication_system` for agent `a`:
skip when `num_cells >= NUM_VAI_CELLS`; skip when `energy_map` has no entry
for the agent's id; skip when the uniform draw is `>= v / stats.max_score`;
otherwise clone the brain, call `mutate` on the clone, bump `cell_id` and
`num_cells`, bump the parent's `num_cells_spawned`, and spawn the child. -/
def replicationStep (I O HIDDEN cap : Nat) (Wq Hq maxScore : ℚ)
    (energy : Nat → Option ℚ) (d : ReproDraws)
    (st : RepState I O HIDDEN) (a : Agent I O HIDDEN) : RepState I O HIDDEN :=
  if cap ≤ st.numCells then
    { st with done := st.done ++ [a] }
  else
    match energy a.id with
    | none => { st with done := st.done ++ [a] }
    | some v =>
      if v / maxScore ≤ genRange 0 1 d.utest then
        { st with done := st.done ++ [a] }
      else
        let x := genRange (-(Wq / 2)) (Wq / 2) d.ux
        let y := genRange (-(Hq / 2)) (Hq / 2) d.uy
        let childNet := (a.brain.clone).mutate d.noise
        { cellId := st.cellId + 1
          numCells := st.numCells + 1
          done := st.done ++ [{ a with numCellsSpawned := a.numCellsSpawned + 1 }]
          spawned := st.spawned ++
            [VaiCellBundle.new I O HIDDEN x y (st.cellId + 1) childNet d.urot d.uphase] }

/-- The replication loop over the remaining agents, `i` indexing the draw
stream (one `ReproDraws` per visited agent). -/
def replicationLoop (I O HIDDEN cap : Nat) (Wq Hq maxScore : ℚ)
    (energy : Nat → Option ℚ) (draws : Nat → ReproDraws) :
    Nat → RepState I O HIDDEN → List (Agent I O HIDDEN) → RepState I O HIDDEN
  | _, st, [] => st
  | i, st, a :: rest =>
    replicationLoop I O HIDDEN cap Wq Hq maxScore energy draws (i + 1)
      (replicationStep I O HIDDEN cap Wq Hq maxScore energy (draws i) st a) rest

/-- `vai_cell_replication_system` from src/src/cell/vai_cell.rs:
`num_cells` starts as the query length, the loop visits every current cell,
and the children spawned through `commands` join the population after the
pass.  `maxScore` is `stats.max_score` (the population-wide maximum energy);
`energy` is the lookup in the `EnergyMap` resource (its value pair's unused
second component is dropped). -/
def vai_cell_replication_system (I O HIDDEN cap : Nat) (Wq Hq maxScore : ℚ)
    (energy : Nat → Option ℚ) (draws : Nat → ReproDraws)
    (s : SimState I O HIDDEN) : SimState I O HIDDEN :=
  let fin := replicationLoop I O HIDDEN cap Wq Hq maxScore energy draws 0
    ⟨s.cellId, s.cells.length, [], []⟩ s.cells
  { cellId := fin.cellId, cells := fin.done ++ fin.spawned }

/-- Modelled from the spec: the trackers' `elapsed_within(bound)` — the time
elapsed since the recorded instant `start`, measured at clock reading `now`,
is still below `bound`. -/
def elapsedWithin (start now bound : ℚ) : Bool := decide (now - start < bound)

/-- The loop body of `update_vai_cells_system` from src/src/cell/vai_cell.rs
for one agent.  The two scheduling gates come first:
`last_updated.elapsed_within(UPDATE_INTERVAL)` and
`one_second_timer.elapsed_within(periodic_update_interval)`; either one
hitting `continue` leaves the agent untouched.  Otherwise `last_updated` is
stamped with the current instant, the brain's `predict` runs on the sensory
inputs, one fitness scalar is pushed, and `perform_cell_action` acts on the
last layer.  The external collaborators are parameters:
`getInputs` models `get_nn_inputs(&transform, &food_tree)`,
`calcFitness` models `calc_fitness(input, [output[0..4]])`, and
`performAction` models `perform_cell_action`'s writes to the agent's
`last_bullet_fired`, `external_force`/torque and `transform` (its projectile
spawning and the focused-cell UI copy touch no agent field). -/
def update_vai_cell (I O HIDDEN : Nat) (interval now oneSecStart : ℚ)
    (getInputs : ℚ × ℚ → ℚ → List ℚ)
    (calcFitness : List ℚ → List ℚ → ℚ)
    (performAction : List ℚ → ℚ × (ℚ × ℚ) × ℚ × (ℚ × ℚ) × ℚ → ℚ × (ℚ × ℚ) × ℚ × (ℚ × ℚ) × ℚ)
    (a : Agent I O HIDDEN) : Agent I O HIDDEN :=
  if elapsedWithin a.lastUpdated now interval then a
  else if elapsedWithin oneSecStart now a.phase then a
  else
    let input := getInputs a.pos a.rot
    let output := a.brain.predict input
    let lastLayer := output.getLastD []
    let fitness := calcFitness input lastLayer
    let acted := performAction lastLayer (a.lastBulletFired, a.force, a.torque, a.pos, a.rot)
    { a with
      lastUpdated := now
      fitnessScores := a.fitnessScores ++ [fitness]
      lastBulletFired := acted.1
      force := acted.2.1
      torque := acted.2.2.1
      pos := acted.2.2.2.1
      rot := acted.2.2.2.2 }

/-- One scheduler tick of the population controller: either the bootstrap
check (`spawn_vai_cells`, every 5 s in the source) or a reproduction pass
(`vai_cell_replication_system`, every 0.5 s), each with its own draw streams
and, for reproduction, its energy snapshot. -/
inductive Tick (I O HIDDEN : Nat) where
  | bootstrap (draws : Nat → SpawnDraws)
  | replication (maxScore : ℚ) (energy : Nat → Option ℚ) (draws : Nat → ReproDraws)

/-- Apply one tick to the simulation state. -/
def applyTick (I O HIDDEN L cap : Nat) (Wq Hq : ℚ) :
    Tick I O HIDDEN → SimState I O HIDDEN → SimState I O HIDDEN
  | Tick.bootstrap draws, s => spawn_vai_cells I O HIDDEN L cap Wq Hq draws s
  | Tick.replication maxScore energy draws, s =>
    vai_cell_replication_system I O HIDDEN cap Wq Hq maxScore energy draws s

/-- Apply a sequence of bootstrap/reproduction ticks, oldest first. -/
def applyTicks (I O HIDDEN L cap : Nat) (Wq Hq : ℚ)
    (ticks : List (Tick I O HIDDEN)) (s : SimState I O HIDDEN) : SimState I O HIDDEN :=
  ticks.foldl (fun t tk => applyTick I O HIDDEN L cap Wq Hq tk t) s

/-! ### Concrete instances used by the witnesses -/

/-- The everywhere-zero noise stream. -/
def noise0 : Nat → Nat → Nat → ℚ := fun _ _ _ => 0

/-- The everywhere-one noise stream. -/
def noise1 : Nat → Nat → Nat → ℚ := fun _ _ _ => 1

/-- A concrete 1-input/1-output/1-hidden network built by `VaiNet::new`. -/
def net1 : VaiNet 1 1 1 := VaiNet.new 1 1 1 1 noise0

/-- A concrete agent holding `net1`, as built by `VaiCellBundle::new`. -/
def agent1 : Agent 1 1 1 := VaiCellBundle.new 1 1 1 0 0 1 net1 0 0

/-- A concrete replication-loop state: id counter 1, one live cell counted. -/
def st0 : RepState 1 1 1 := ⟨1, 1, [], []⟩

/-- Concrete replication draws: all unit draws 0, child-mutation noise 1. -/
def rd1 : ReproDraws := ⟨0, 0, 0, 0, 0, noise1⟩

/-- Concrete bootstrap draws: all unit draws 0, init noise 0. -/
def sd0 : SpawnDraws := ⟨0, 0, 0, 0, noise0⟩

/-- A concrete simulation state with an empty population. -/
def sEmpty : SimState 1 1 1 := ⟨0, []⟩

/-- A concrete simulation state with one live cell. -/
def sOne : SimState 1 1 1 := ⟨1, [agent1]⟩

/-! ### Generic lemmas about the layer propagation and sampling -/

theorem getLastD_irrel {α : Type _} (l : List α) (h : l ≠ []) (d1 d2 : α) :
    l.getLastD d1 = l.getLastD d2 := by
  cases l with
  | nil => cases h rfl
  | cons x xs => rw [List.getLastD_cons, List.getLastD_cons]

theorem applyLayer_length (mat : List (List ℚ)) (v : List ℚ) :
    (applyLayer mat v).length = mat.length := by
  simp [applyLayer]

theorem processLayers_length (mats : List (List (List ℚ))) (v : List ℚ) :
    (processLayers mats v).length = mats.length := by
  induction mats generalizing v with
  | nil => rfl
  | cons m rest ih => simp [processLayers, ih]

theorem processLayers_ne_nil (mats : List (List (List ℚ))) (v : List ℚ)
    (h : mats ≠ []) : processLayers mats v ≠ [] := by
  intro hcon
  have hlen := processLayers_length mats v
  rw [hcon] at hlen
  exact h (List.eq_nil_of_length_eq_zero hlen.symm)

theorem processLayers_last_length (mats : List (List (List ℚ))) (v : List ℚ)
    (h : mats ≠ []) :
    ((processLayers mats v).getLastD []).length = (mats.getLastD []).length := by
  induction mats generalizing v with
  | nil => cases h rfl
  | cons m rest ih =>
    cases rest with
    | nil => simp [processLayers, applyLayer_length]
    | cons m2 r2 =>
      have hstep : processLayers (m :: m2 :: r2) v
          = applyLayer m v :: processLayers (m2 :: r2) (applyLayer m v) := rfl
      have hne : processLayers (m2 :: r2) (applyLayer m v) ≠ [] :=
        processLayers_ne_nil _ _ (by simp)
      rw [hstep, List.getLastD_cons, List.getLastD_cons,
        getLastD_irrel _ hne (applyLayer m v) [],
        getLastD_irrel (m2 :: r2) (by simp) m []]
      exact ih (applyLayer m v) (by simp)

theorem genRange_bounds (lo hi u : ℚ) (hrange : lo < hi) (h0 : 0 ≤ u) (h1 : u < 1) :
    lo ≤ genRange lo hi u ∧ genRange lo hi u < hi := by
  unfold genRange
  constructor
  · nlinarith
  · nlinarith

/-! ### Branch lemmas for one replication-loop iteration -/

theorem replicationStep_at_cap (I O HIDDEN cap : Nat) (Wq Hq maxScore : ℚ)
    (energy : Nat → Option ℚ) (d : ReproDraws) (st : RepState I O HIDDEN)
    (a : Agent I O HIDDEN) (h : cap ≤ st.numCells) :
    replicationStep I O HIDDEN cap Wq Hq maxScore energy d st a
      = { st with done := st.done ++ [a] } := by
  unfold replicationStep
  rw [if_pos h]

theorem replicationStep_no_energy (I O HIDDEN cap : Nat) (Wq Hq maxScore : ℚ)
    (energy : Nat → Option ℚ) (d : ReproDraws) (st : RepState I O HIDDEN)
    (a : Agent I O HIDDEN) (h : energy a.id = none) :
    replicationStep I O HIDDEN cap Wq Hq maxScore energy d st a
      = { st with done := st.done ++ [a] } := by
  unfold replicationStep
  split
  · rfl
  · simp only [h]

theorem replicationStep_skip_draw (I O HIDDEN cap : Nat) (Wq Hq maxScore : ℚ)
    (energy : Nat → Option ℚ) (d : ReproDraws) (st : RepState I O HIDDEN)
    (a : Agent I O HIDDEN) (v : ℚ) (hcap : st.numCells < cap)
    (hv : energy a.id = some v) (hge : v / maxScore ≤ genRange 0 1 d.utest) :
    replicationStep I O HIDDEN cap Wq Hq maxScore energy d st a
      = { st with done := st.done ++ [a] } := by
  unfold replicationStep
  rw [if_neg (not_le.mpr hcap)]
  simp only [hv]
  rw [if_pos hge]

theorem replicationStep_spawn (I O HIDDEN cap : Nat) (Wq Hq maxScore : ℚ)
    (energy : Nat → Option ℚ) (d : ReproDraws) (st : RepState I O HIDDEN)
    (a : Agent I O HIDDEN) (v : ℚ) (hcap : st.numCells < cap)
    (hv : energy a.id = some v) (hlt : ¬ v / maxScore ≤ genRange 0 1 d.utest) :
    replicationStep I O HIDDEN cap Wq Hq maxScore energy d st a
      = { cellId := st.cellId + 1
          numCells := st.numCells + 1
          done := st.done ++ [{ a with numCellsSpawned := a.numCellsSpawned + 1 }]
          spawned := st.spawned ++
            [VaiCellBundle.new I O HIDDEN
              (genRange (-(Wq / 2)) (Wq / 2) d.ux) (genRange (-(Hq / 2)) (Hq / 2) d.uy)
              (st.cellId + 1) ((a.brain.clone).mutate d.noise) d.urot d.uphase] } := by
  unfold replicationStep
  rw [if_neg (not_le.mpr hcap)]
  simp only [hv]
  rw [if_neg hlt]

theorem replicationStep_done_length (I O HIDDEN cap : Nat) (Wq Hq maxScore : ℚ)
    (energy : Nat → Option ℚ) (d : ReproDraws) (st : RepState I O HIDDEN)
    (a : Agent I O HIDDEN) :
    (replicationStep I O HIDDEN cap Wq Hq maxScore energy d st a).done.length
      = st.done.length + 1 := by
  unfold replicationStep
  split
  · simp
  · split
    · simp
    · split
      · simp
      · simp

theorem replicationStep_count (I O HIDDEN cap : Nat) (Wq Hq maxScore : ℚ)
    (energy : Nat → Option ℚ) (d : ReproDraws) (st : RepState I O HIDDEN)
    (a : Agent I O HIDDEN) :
    (replicationStep I O HIDDEN cap Wq Hq maxScore energy d st a).numCells
        + st.spawned.length
      = st.numCells
        + (replicationStep I O HIDDEN cap Wq Hq maxScore energy d st a).spawned.length := by
  unfold replicationStep
  split
  · simp
  · split
    · simp
    · split
      · simp
      · simp
        omega

theorem replicationStep_le_cap (I O HIDDEN cap : Nat) (Wq Hq maxScore : ℚ)
    (energy : Nat → Option ℚ) (d : ReproDraws) (st : RepState I O HIDDEN)
    (a : Agent I O HIDDEN) (h : st.numCells ≤ cap) :
    (replicationStep I O HIDDEN cap Wq Hq maxScore energy d st a).numCells ≤ cap := by
  unfold replicationStep
  split
  · simpa using h
  · split
    · simpa using h
    · split
      · simpa using h
      · rename_i hnotcap _ _
        simp
        omega

/-! ### Loop invariants of the replication pass -/

theorem replicationLoop_inv (I O HIDDEN cap : Nat) (Wq Hq maxScore : ℚ)
    (energy : Nat → Option ℚ) (draws : Nat → ReproDraws) (c0 : Nat) :
    ∀ (l : List (Agent I O HIDDEN)) (i : Nat) (st : RepState I O HIDDEN),
      st.numCells = c0 + st.spawned.length → st.numCells ≤ cap →
      (replicationLoop I O HIDDEN cap Wq Hq maxScore energy draws i st l).numCells
          = c0 + (replicationLoop I O HIDDEN cap Wq Hq maxScore energy draws i st l).spawned.length
        ∧ (replicationLoop I O HIDDEN cap Wq Hq maxScore energy draws i st l).numCells ≤ cap
        ∧ (replicationLoop I O HIDDEN cap Wq Hq maxScore energy draws i st l).done.length
          = st.done.length + l.length := by
  intro l
  induction l with
  | nil =>
    intro i st h1 h2
    exact ⟨h1, h2, by simp [replicationLoop]⟩
  | cons a rest ih =>
    intro i st h1 h2
    have hcount := replicationStep_count I O HIDDEN cap Wq Hq maxScore energy (draws i) st a
    have hle := replicationStep_le_cap I O HIDDEN cap Wq Hq maxScore energy (draws i) st a h2
    have hdone := replicationStep_done_length I O HIDDEN cap Wq Hq maxScore energy (draws i) st a
    have hinv : (replicationStep I O HIDDEN cap Wq Hq maxScore energy (draws i) st a).numCells
        = c0 + (replicationStep I O HIDDEN cap Wq Hq maxScore energy (draws i) st a).spawned.length := by
      omega
    obtain ⟨g1, g2, g3⟩ := ih (i + 1)
      (replicationStep I O HIDDEN cap Wq Hq maxScore energy (draws i) st a) hinv hle
    refine ⟨g1, g2, ?_⟩
    rw [show replicationLoop I O HIDDEN cap Wq Hq maxScore energy draws i st (a :: rest)
        = replicationLoop I O HIDDEN cap Wq Hq maxScore energy draws (i + 1)
            (replicationStep I O HIDDEN cap Wq Hq maxScore energy (draws i) st a) rest from rfl,
      g3, hdone]
    simp
    omega

theorem replicationLoop_at_cap (I O HIDDEN cap : Nat) (Wq Hq maxScore : ℚ)
    (energy : Nat → Option ℚ) (draws : Nat → ReproDraws) :
    ∀ (l : List (Agent I O HIDDEN)) (i : Nat) (st : RepState I O HIDDEN),
      cap ≤ st.numCells →
      replicationLoop I O HIDDEN cap Wq Hq maxScore energy draws i st l
        = { st with done := st.done ++ l } := by
  intro l
  induction l with
  | nil =>
    intro i st _
    simp [replicationLoop]
  | cons a rest ih =>
    intro i st h
    rw [show replicationLoop I O HIDDEN cap Wq Hq maxScore energy draws i st (a :: rest)
        = replicationLoop I O HIDDEN cap Wq Hq maxScore energy draws (i + 1)
            (replicationStep I O HIDDEN cap Wq Hq maxScore energy (draws i) st a) rest from rfl,
      replicationStep_at_cap I O HIDDEN cap Wq Hq maxScore energy (draws i) st a h,
      ih (i + 1) _ (by simpa using h)]
    simp

/-! ### System-level lemmas -/

theorem replication_system_preserves_cap (I O HIDDEN cap : Nat) (Wq Hq maxScore : ℚ)
    (energy : Nat → Option ℚ) (draws : Nat → ReproDraws) (s : SimState I O HIDDEN)
    (h : s.cells.length ≤ cap) :
    (vai_cell_replication_system I O HIDDEN cap Wq Hq maxScore energy draws s).cells.length
      ≤ cap := by
  obtain ⟨g1, g2, g3⟩ := replicationLoop_inv I O HIDDEN cap Wq Hq maxScore energy draws
    s.cells.length s.cells 0 ⟨s.cellId, s.cells.length, [], []⟩ (by simp) h
  have g4 : (replicationLoop I O HIDDEN cap Wq Hq maxScore energy draws 0
      ⟨s.cellId, s.cells.length, [], []⟩ s.cells).done.length = s.cells.length := by
    simpa using g3
  simp only [vai_cell_replication_system, List.length_append]
  omega

theorem replication_system_at_cap (I O HIDDEN cap : Nat) (Wq Hq maxScore : ℚ)
    (energy : Nat → Option ℚ) (draws : Nat → ReproDraws) (s : SimState I O HIDDEN)
    (h : cap ≤ s.cells.length) :
    vai_cell_replication_system I O HIDDEN cap Wq Hq maxScore energy draws s = s := by
  simp only [vai_cell_replication_system]
  rw [replicationLoop_at_cap I O HIDDEN cap Wq Hq maxScore energy draws s.cells 0
    ⟨s.cellId, s.cells.length, [], []⟩ (by simpa using h)]
  simp

theorem spawn_system_preserves_cap (I O HIDDEN L cap : Nat) (Wq Hq : ℚ)
    (draws : Nat → SpawnDraws) (s : SimState I O HIDDEN)
    (h : s.cells.length ≤ cap) :
    (spawn_vai_cells I O HIDDEN L cap Wq Hq draws s).cells.length ≤ cap := by
  unfold spawn_vai_cells
  split
  · exact h
  · rename_i hpos
    have h0 : s.cells.length = 0 := by omega
    simp [h0]

theorem applyTick_preserves_cap (I O HIDDEN L cap : Nat) (Wq Hq : ℚ)
    (tk : Tick I O HIDDEN) (s : SimState I O HIDDEN) (h : s.cells.length ≤ cap) :
    (applyTick I O HIDDEN L cap Wq Hq tk s).cells.length ≤ cap := by
  cases tk with
  | bootstrap draws => exact spawn_system_preserves_cap I O HIDDEN L cap Wq Hq draws s h
  | replication maxScore energy draws =>
    exact replication_system_preserves_cap I O HIDDEN cap Wq Hq maxScore energy draws s h

theorem applyTicks_preserves_cap (I O HIDDEN L cap : Nat) (Wq Hq : ℚ) :
    ∀ (ticks : List (Tick I O HIDDEN)) (s : SimState I O HIDDEN),
      s.cells.length ≤ cap →
      (applyTicks I O HIDDEN L cap Wq Hq ticks s).cells.length ≤ cap := by
  intro ticks
  induction ticks with
  | nil => intro s h; exact h
  | cons tk rest ih =>
    intro s h
    exact ih (applyTick I O HIDDEN L cap Wq Hq tk s)
      (applyTick_preserves_cap I O HIDDEN L cap Wq Hq tk s h)

/-! ### Claim theorems over the population controller and scheduler -/

/-- Claim C3: starting from a population of size at most `cap`
(`MAX_POPULATION`, i.e. `NUM_VAI_CELLS` in the source), any sequence of
bootstrap-check and reproduction ticks keeps the population size at or below
`cap`; and a reproduction tick invoked at the cap leaves the state exactly
unchanged — zero new agents, regardless of the agents' energy values. -/
theorem population_never_exceeds_cap (I O HIDDEN L cap : Nat) (Wq Hq : ℚ)
    (ticks : List (Tick I O HIDDEN)) (s : SimState I O HIDDEN)
    (h : s.cells.length ≤ cap) :
    (applyTicks I O HIDDEN L cap Wq Hq ticks s).cells.length ≤ cap
    ∧ (∀ (maxScore : ℚ) (energy : Nat → Option ℚ) (draws : Nat → ReproDraws),
        cap ≤ s.cells.length →
        vai_cell_replication_system I O HIDDEN cap Wq Hq maxScore energy draws s = s) :=
  ⟨applyTicks_preserves_cap I O HIDDEN L cap Wq Hq ticks s h,
   fun maxScore energy draws hc =>
     replication_system_at_cap I O HIDDEN cap Wq Hq maxScore energy draws s hc⟩

/-- Witness for C3: one cell at a cap of 1; a reproduction tick is the
identity and a tick sequence never pushes the population above 1. -/
theorem population_never_exceeds_cap_witness :
    (applyTicks 1 1 1 1 1 10 10 [Tick.replication 1 (fun _ => some 1) (fun _ => rd1)]
      sOne).cells.length ≤ 1
    ∧ vai_cell_replication_system 1 1 1 1 10 10 1 (fun _ => some 1) (fun _ => rd1) sOne
      = sOne := by
  have h := population_never_exceeds_cap 1 1 1 1 1 10 10
    [Tick.replication 1 (fun _ => some 1) (fun _ => rd1)] sOne (by decide)
  exact ⟨h.1, h.2 1 (fun _ => some 1) (fun _ => rd1) (by decide)⟩

/-- Claim C4: with the population below the cap and a recorded energy `v`,
an agent reproduces exactly when the uniform draw is `< v / maxScore`;
for the same draw a higher energy can only turn a skip into a reproduction
(pointwise monotonicity, hence monotone reproduction probability); and at
`v = maxScore` every draw in `[0,1)` reproduces (probability 1). -/
theorem reproduction_probability_rule (I O HIDDEN cap : Nat) (Wq Hq maxScore : ℚ)
    (energy : Nat → Option ℚ) (d : ReproDraws) (st : RepState I O HIDDEN)
    (a : Agent I O HIDDEN) (v : ℚ) (hcap : st.numCells < cap)
    (hv : energy a.id = some v) (hm : 0 < maxScore) :
    ((replicationStep I O HIDDEN cap Wq Hq maxScore energy d st a).spawned.length
        = st.spawned.length + 1 ↔ genRange 0 1 d.utest < v / maxScore)
    ∧ (∀ v2 : ℚ, v ≤ v2 → genRange 0 1 d.utest < v / maxScore →
        genRange 0 1 d.utest < v2 / maxScore)
    ∧ (v = maxScore → 0 ≤ d.utest → d.utest < 1 →
        (replicationStep I O HIDDEN cap Wq Hq maxScore energy d st a).spawned.length
          = st.spawned.length + 1) := by
  refine ⟨?_, ?_, ?_⟩
  · by_cases hle : v / maxScore ≤ genRange 0 1 d.utest
    · rw [replicationStep_skip_draw I O HIDDEN cap Wq Hq maxScore energy d st a v hcap hv hle]
      exact iff_of_false (by simp) (not_lt.mpr hle)
    · rw [replicationStep_spawn I O HIDDEN cap Wq Hq maxScore energy d st a v hcap hv hle]
      exact iff_of_true (by simp) (not_le.mp hle)
  · intro v2 hle hlt
    refine lt_of_lt_of_le hlt ?_
    gcongr
  · intro he h0 h1
    have hlt : ¬ v / maxScore ≤ genRange 0 1 d.utest := by
      rw [he, div_self (ne_of_gt hm)]
      simp only [genRange]
      intro hcon
      nlinarith
    rw [replicationStep_spawn I O HIDDEN cap Wq Hq maxScore energy d st a v hcap hv hlt]
    simp

/-- Witness for C4 on a concrete below-cap state and energy map. -/
theorem reproduction_probability_rule_witness :
    ((replicationStep 1 1 1 4 10 10 1 (fun _ => some 1) rd1 st0 agent1).spawned.length
        = st0.spawned.length + 1 ↔ genRange 0 1 rd1.utest < 1 / 1) :=
  (reproduction_probability_rule 1 1 1 4 10 10 1 (fun _ => some 1) rd1 st0 agent1 1
    (by decide) rfl (by norm_num)).1

/-- Claim C9: during a reproduction tick, an agent whose id is absent from
the energy map is silently skipped — it is written back unchanged (offspring
counter included), nothing is spawned for it and no id is allocated. -/
theorem missing_energy_silently_skipped (I O HIDDEN cap : Nat) (Wq Hq maxScore : ℚ)
    (energy : Nat → Option ℚ) (d : ReproDraws) (st : RepState I O HIDDEN)
    (a : Agent I O HIDDEN) (h : energy a.id = none) :
    replicationStep I O HIDDEN cap Wq Hq maxScore energy d st a
        = { st with done := st.done ++ [a] }
    ∧ (replicationStep I O HIDDEN cap Wq Hq maxScore energy d st a).spawned = st.spawned
    ∧ (replicationStep I O HIDDEN cap Wq Hq maxScore energy d st a).cellId = st.cellId
    ∧ (replicationStep I O HIDDEN cap Wq Hq maxScore energy d st a).done
        = st.done ++ [a] := by
  have heq := replicationStep_no_energy I O HIDDEN cap Wq Hq maxScore energy d st a h
  rw [heq]
  exact ⟨rfl, rfl, rfl, rfl⟩

/-- Witness for C9: a concrete agent not tracked by the energy collaborator. -/
theorem missing_energy_silently_skipped_witness :
    replicationStep 1 1 1 4 10 10 1 (fun _ => none) rd1 st0 agent1
      = { st0 with done := st0.done ++ [agent1] } :=
  (missing_energy_silently_skipped 1 1 1 4 10 10 1 (fun _ => none) rd1 st0 agent1 rfl).1

/-- Claim C5: the bootstrap check spawns exactly `cap` fresh agents — each
with a newly initialized network, a position uniform within the world
bounds, a fresh random evaluation phase offset, an empty fitness history and
a distinct new id — if and only if the population is exactly zero; with any
live agent it spawns nothing, also when run twice in succession. -/
theorem bootstrap_spawns_iff_empty (I O HIDDEN L cap : Nat) (Wq Hq : ℚ)
    (draws : Nat → SpawnDraws) (s : SimState I O HIDDEN)
    (hu : ∀ i, (draws i).unitRange) (hW : 0 < Wq) (hH : 0 < Hq) :
    (s.cells.length = 0 →
      (spawn_vai_cells I O HIDDEN L cap Wq Hq draws s).cells.length = cap
      ∧ ((spawn_vai_cells I O HIDDEN L cap Wq Hq draws s).cells.map Agent.id).Nodup
      ∧ (∀ a ∈ (spawn_vai_cells I O HIDDEN L cap Wq Hq draws s).cells,
          (-(Wq / 2) ≤ a.pos.1 ∧ a.pos.1 < Wq / 2
            ∧ -(Hq / 2) ≤ a.pos.2 ∧ a.pos.2 < Hq / 2)
          ∧ ∃ i, i < cap ∧ a.id = s.cellId + i + 1
              ∧ a.brain = VaiNet.new I O HIDDEN L (draws i).initNoise
              ∧ a.phase = genRange 0 1 (draws i).uphase
              ∧ a.fitnessScores = []))
    ∧ (0 < s.cells.length →
        spawn_vai_cells I O HIDDEN L cap Wq Hq draws s = s
        ∧ spawn_vai_cells I O HIDDEN L cap Wq Hq draws
            (spawn_vai_cells I O HIDDEN L cap Wq Hq draws s) = s) := by
  constructor
  · intro h0
    have hnil : s.cells = [] := List.eq_nil_of_length_eq_zero h0
    have hcells : (spawn_vai_cells I O HIDDEN L cap Wq Hq draws s).cells
        = (List.range cap).map fun i =>
            VaiCellBundle.new I O HIDDEN
              (genRange (-(Wq / 2)) (Wq / 2) (draws i).ux)
              (genRange (-(Hq / 2)) (Hq / 2) (draws i).uy)
              (s.cellId + i + 1)
              (VaiNet.new I O HIDDEN L (draws i).initNoise)
              (draws i).urot (draws i).uphase := by
      unfold spawn_vai_cells
      rw [if_neg (by omega)]
      simp [hnil]
    refine ⟨?_, ?_, ?_⟩
    · rw [hcells]
      simp
    · rw [hcells, List.map_map]
      exact List.Nodup.map (fun a b hab => by
        have : s.cellId + a + 1 = s.cellId + b + 1 := hab
        omega) (List.nodup_range cap)
    · intro a ha
      rw [hcells] at ha
      obtain ⟨i, hi, heq⟩ := List.mem_map.mp ha
      obtain ⟨hux0, hux1, huy0, huy1, _, _, hup0, hup1⟩ := hu i
      have hWlt : -(Wq / 2) < Wq / 2 := by linarith
      have hHlt : -(Hq / 2) < Hq / 2 := by linarith
      subst heq
      refine ⟨⟨(genRange_bounds _ _ _ hWlt hux0 hux1).1,
          (genRange_bounds _ _ _ hWlt hux0 hux1).2,
          (genRange_bounds _ _ _ hHlt huy0 huy1).1,
          (genRange_bounds _ _ _ hHlt huy0 huy1).2⟩,
        i, List.mem_range.mp hi, rfl, rfl, rfl, rfl⟩
  · intro hpos
    have h1 : spawn_vai_cells I O HIDDEN L cap Wq Hq draws s = s := by
      unfold spawn_vai_cells
      rw [if_pos hpos]
    exact ⟨h1, by rw [h1, h1]⟩

/-- Witness for C5: an empty population with cap 2 spawns exactly 2 agents
with pairwise distinct ids; a nonempty one is left untouched. -/
theorem bootstrap_spawns_iff_empty_witness :
    ((spawn_vai_cells 1 1 1 1 2 10 10 (fun _ => sd0) sEmpty).cells.length = 2
      ∧ ((spawn_vai_cells 1 1 1 1 2 10 10 (fun _ => sd0) sEmpty).cells.map Agent.id).Nodup)
    ∧ spawn_vai_cells 1 1 1 1 2 10 10 (fun _ => sd0) sOne = sOne := by
  have h1 := bootstrap_spawns_iff_empty 1 1 1 1 2 10 10 (fun _ => sd0) sEmpty
    (fun _ => by norm_num [sd0, SpawnDraws.unitRange]) (by norm_num) (by norm_num)
  have h2 := bootstrap_spawns_iff_empty 1 1 1 1 2 10 10 (fun _ => sd0) sOne
    (fun _ => by norm_num [sd0, SpawnDraws.unitRange]) (by norm_num) (by norm_num)
  exact ⟨⟨(h1.1 rfl).1, (h1.1 rfl).2.1⟩, (h2.2 (by decide)).1⟩

/-- Claim C8: in the agent-update pass, an agent with either scheduling gate
tripped (updated within the short global interval, or the shared one-second
clock still within its phase offset) is left completely unchanged with
nothing recorded; when both gates pass, exactly one scalar is appended to
its fitness history and the previous history is preserved unchanged. -/
theorem update_gating_frame (I O HIDDEN : Nat) (interval now oneSecStart : ℚ)
    (getInputs : ℚ × ℚ → ℚ → List ℚ) (calcFitness : List ℚ → List ℚ → ℚ)
    (performAction : List ℚ → ℚ × (ℚ × ℚ) × ℚ × (ℚ × ℚ) × ℚ → ℚ × (ℚ × ℚ) × ℚ × (ℚ × ℚ) × ℚ)
    (a : Agent I O HIDDEN) :
    ((elapsedWithin a.lastUpdated now interval = true
        ∨ elapsedWithin oneSecStart now a.phase = true) →
      update_vai_cell I O HIDDEN interval now oneSecStart getInputs calcFitness
        performAction a = a)
    ∧ (elapsedWithin a.lastUpdated now interval = false →
        elapsedWithin oneSecStart now a.phase = false →
        (update_vai_cell I O HIDDEN interval now oneSecStart getInputs calcFitness
            performAction a).fitnessScores
          = a.fitnessScores
              ++ [calcFitness (getInputs a.pos a.rot)
                    ((a.brain.predict (getInputs a.pos a.rot)).getLastD [])]) := by
  constructor
  · intro hg
    rcases hg with h | h
    · simp [update_vai_cell, h]
    · cases hg1 : elapsedWithin a.lastUpdated now interval <;>
        simp [update_vai_cell, hg1, h]
  · intro h1 h2
    simp [update_vai_cell, h1, h2]

/-- Witness for C8: with the global-interval gate tripped the concrete agent
is returned unchanged. -/
theorem update_gating_frame_witness :
    update_vai_cell 1 1 1 1 0 0 (fun _ _ => []) (fun _ _ => 0) (fun _ t => t) agent1
      = agent1 :=
  (update_gating_frame 1 1 1 1 0 0 (fun _ _ => []) (fun _ _ => 0) (fun _ t => t)
    agent1).1
    (Or.inl (by simp [elapsedWithin, agent1, VaiCellBundle.new]))

/-! ### Claim theorems over the network operations -/

/-- Claim C1 (code bug in `VaiNet::mutate`, src/src/vain.rs): the claim says
`mutate` changes at least one weight with probability 1 over the noise draws
(and never changes the shape).  The source body
`self.layers.create_variant(1.0);` discards the created variant instead of
assigning it back, so `mutate` returns the network unchanged for every noise
draw — while the discarded strength-1 variant itself, evaluated on a
concrete network with noise ≡ 1, genuinely differs from the current
weights. -/
theorem vaiNet_mutate_is_noop :
    (∀ (I O HIDDEN : Nat) (n : VaiNet I O HIDDEN) (noise : Nat → Nat → Nat → ℚ),
        n.mutate noise = n)
    ∧ net1.mutate noise1 = net1
    ∧ net1.layers.create_variant 1 noise1 ≠ net1.layers :=
  ⟨fun _ _ _ _ _ => rfl, rfl, by
    norm_num [net1, VaiNet.new, VAI.new, VAI.create_variant, zeroMat, noise0, noise1,
      List.mapIdx_cons, VAI.mk.injEq]⟩

/-- Claim C2 (code bug, same root cause as C1): the two strength constants
are present as claimed — `new` randomizes through `create_variant(5.)`,
`mutate` passes `1.0`, and `1 < 5` — but because `mutate` discards its
variant, the child network spawned at a concrete reproduction event is
bit-identical to its parent's instead of differing by the small-strength
perturbation. -/
theorem reproduction_child_equals_parent :
    ((replicationStep 1 1 1 4 10 10 1 (fun _ => some 1) rd1 st0 agent1).spawned.map
        (fun a => a.brain)) = [agent1.brain]
    ∧ VaiNet.new 1 1 1 1 noise1 = ⟨(VAI.new 1 1 1 1).create_variant 5 noise1⟩
    ∧ (agent1.brain.clone).mutate rd1.noise = agent1.brain
    ∧ (1 : ℚ) < 5 := by
  refine ⟨?_, rfl, rfl, by norm_num⟩
  rw [replicationStep_spawn 1 1 1 4 10 10 1 (fun _ => some 1) rd1 st0 agent1 1
    (by decide) rfl (by norm_num [genRange, rd1])]
  simp [st0]
  rfl

/-- Claim C6: the cloning law — a clone of `N` produces exactly the same
`predict` output as `N` on every input, before any mutation touches the
clone. -/
theorem clone_preserves_predict (I O HIDDEN : Nat) (n : VaiNet I O HIDDEN)
    (x : List ℚ) : (n.clone).predict x = n.predict x := rfl

/-- Claim C7: for any input vector `x`, `predict` appends the constant bias
`1.0` (effective input width `x.length + 1`), propagates it through every
layer, and returns a non-empty ordered sequence of per-layer activations
whose final element has exactly `O` entries. -/
theorem predict_output_shape (I O HIDDEN : Nat) (n : VaiNet I O HIDDEN)
    (x : List ℚ) (hwf : n.layers.wf) :
    n.predict x = n.layers.process_slice_transparent (x ++ [1])
    ∧ (x ++ [1]).length = x.length + 1
    ∧ n.predict x ≠ []
    ∧ (n.predict x).length = n.layers.mats.length
    ∧ ((n.predict x).getLastD []).length = O := by
  obtain ⟨hne, hO⟩ := hwf
  refine ⟨rfl, by simp, ?_, ?_, ?_⟩
  · exact processLayers_ne_nil n.layers.mats (x ++ [1]) hne
  · exact processLayers_length _ _
  · rw [show n.predict x = processLayers n.layers.mats (x ++ [1]) from rfl,
      processLayers_last_length _ _ hne, hO]

/-- Witness for C7 at the concrete network `net1` and input `[0]`. -/
theorem predict_output_shape_witness :
    net1.predict [0] ≠ [] ∧ ((net1.predict [0]).getLastD []).length = 1 := by
  have hwf : net1.layers.wf := by
    constructor
    · norm_num [net1, VaiNet.new, VAI.new, VAI.create_variant, zeroMat, noise0,
        List.mapIdx_cons]
      exact List.cons_ne_nil _ _
    · norm_num [net1, VaiNet.new, VAI.new, VAI.create_variant, zeroMat, noise0,
        List.mapIdx_cons]
  have h := predict_output_shape 1 1 1 net1 [0] hwf
  exact ⟨h.2.2.1, h.2.2.2.2⟩

/-- Claim C10: `predict` is deterministic and effect-free at the public
interface — the network observable after a `&self` call is the receiver
itself, and a second call on it returns the same activation sequences. -/
theorem predict_deterministic_effect_free (I O HIDDEN : Nat)
    (n : VaiNet I O HIDDEN) (x : List ℚ) :
    (n.predictCall x).2 = n
    ∧ (n.predictCall x).1 = (((n.predictCall x).2).predictCall x).1 :=
  ⟨rfl, rfl⟩
